import Mathlib

/-!
Verification of the hmm_tblout library (a parser/renderer for the tabular
`tblout` reports of the HMMER/Infernal tool family) against its
natural-language specification.  The Rust sources (`src/reader.rs`,
`src/record.rs`, `src/writer.rs`) are shallowly embedded below: lines are
`List Char`, Rust `i32` is `Int` with explicit range side conditions,
Rust `f32` fields are an abstract type parameter `F` together with the
(external, `std`-provided) formatting and parsing functions, and fallible
or panicking control flow is made explicit through the `RunResult` type.
-/

namespace Hmm

/-- Whitespace test used throughout (`char::is_whitespace` on the ASCII
range, which is all the format ever produces). -/
def isWs (c : Char) : Bool := c.isWhitespace

/-- The crate's error kinds.  Modelled from the spec: the `Error`/`ErrorKind`
type lives in the crate root (`lib.rs`), which is not among the provided
sources; §7 of the spec lists the taxonomy (I/O failure, unrecognized
program identifier, malformed field), and `reader.rs`/`record.rs` construct
the `Io`, `Meta` and `ReadRecord` variants.  `parseField` stands for the
error produced by the `?`-conversion of a failed `i32`/`f32`/`char`
coercion ("malformed field" in the spec). -/
inductive ErrorKind where
  | io : ErrorKind
  | meta : List Char → ErrorKind
  | readRecord : List Char → ErrorKind
  | parseField : ErrorKind
deriving DecidableEq

/-- Outcome of running a piece of Rust code: a normal return value, a typed
error returned to the caller, or a process abort (`panic!`, `unwrap` on an
error, `unreachable!`, or an out-of-bounds index). -/
inductive RunResult (α : Type) where
  | ok : α → RunResult α
  | err : ErrorKind → RunResult α
  | panicked : RunResult α
deriving DecidableEq

/-- Sequencing of Rust statements that can fail or abort. -/
def RunResult.bind {α β : Type} : RunResult α → (α → RunResult β) → RunResult β
  | .ok a, f => f a
  | .err e, _ => .err e
  | .panicked, _ => .panicked

/-- `map` over the normal result. -/
def RunResult.map {α β : Type} (f : α → β) : RunResult α → RunResult β
  | .ok a => .ok (f a)
  | .err e => .err e
  | .panicked => .panicked

instance {ε α : Type} [DecidableEq ε] [DecidableEq α] :
    DecidableEq (Except ε α) := fun x y => by
  cases x <;> cases y
  case error.error a b =>
    exact if h : a = b then .isTrue (by rw [h])
      else .isFalse (by simp [Except.error.injEq, h])
  case error.ok a b => exact .isFalse (by simp)
  case ok.error a b => exact .isFalse (by simp)
  case ok.ok a b =>
    exact if h : a = b then .isTrue (by rw [h])
      else .isFalse (by simp [Except.ok.injEq, h])

/-! ## The `Program` codec (`record.rs`, `impl FromStr for Program`) -/

/-- The program that produced the report (`record.rs`).  `None` is the
default "unknown / not yet read" state. -/
inductive Program where
  | None
  | Nhmmer
  | Nhmmscan
  | Jackhmmer
  | Hmmscan
  | Hmmsearch
  | Phmmer
  | Cmsearch
  | Cmscan
deriving DecidableEq

/-- The error message `Program::from_str` formats for a rejected string. -/
def programErrMsg (s : List Char) : List Char :=
  "The program \"".toList ++ s ++ "\" is not supported.".toList

/-- `impl FromStr for Program` (`record.rs` lines 468-487): exact match on
the eight known lowercase names, `ErrorKind::Meta` otherwise. -/
def programFromStr (s : List Char) : Except ErrorKind Program :=
  if s = "nhmmer".toList then .ok .Nhmmer
  else if s = "nhmmscan".toList then .ok .Nhmmscan
  else if s = "jackhmmer".toList then .ok .Jackhmmer
  else if s = "hmmscan".toList then .ok .Hmmscan
  else if s = "hmmsearch".toList then .ok .Hmmsearch
  else if s = "phmmer".toList then .ok .Phmmer
  else if s = "cmsearch".toList then .ok .Cmsearch
  else if s = "cmscan".toList then .ok .Cmscan
  else .error (.meta (programErrMsg s))

/-- The eight accepted program names. -/
def programNames : List (List Char) :=
  ["nhmmer".toList, "nhmmscan".toList, "jackhmmer".toList, "hmmscan".toList,
   "hmmsearch".toList, "phmmer".toList, "cmsearch".toList, "cmscan".toList]

/-! ## `Header::calculate_dashes` (`record.rs` lines 550-591) -/

/-- The character-by-character loop of `Header::calculate_dashes`, with the
mutable state (`lengths`, `current_length`, `space_count`, `in_dash_run`)
made explicit. -/
def calcDashesAux : List Char → Nat → Nat → Bool → List Nat → List Nat
  | [], cur, _, _, acc => if cur > 0 then acc ++ [cur] else acc
  | c :: cs, cur, sp, inRun, acc =>
    if c = '-' ∨ c = '#' then
      calcDashesAux cs ((if sp > 1 then cur + (sp - 1) else cur) + 1) 0 true acc
    else if c = ' ' then
      if inRun then
        if sp = 0 then calcDashesAux cs 0 (sp + 1) inRun (acc ++ [cur])
        else calcDashesAux cs cur (sp + 1) inRun acc
      else calcDashesAux cs cur sp inRun acc
    else
      if cur > 0 then calcDashesAux cs 0 0 false (acc ++ [cur])
      else calcDashesAux cs cur 0 false acc

/-- `Header::calculate_dashes` on the raw text of the dash line. -/
def calcDashes (l : List Char) : List Nat := calcDashesAux l 0 0 false []

/-- A fill run: every character is `-` or `#`. -/
def allFill (t : List Char) : Prop := ∀ c ∈ t, c = '-' ∨ c = '#'

/-- Runs joined by exactly one separating space (the well-formed dash-line
shape named by the spec). -/
def sepJoin : List (List Char) → List Char
  | [] => []
  | [r] => r
  | r :: rs => r ++ ' ' :: sepJoin rs

theorem calcAux_nil (cur sp : Nat) (inRun : Bool) (acc : List Nat) :
    calcDashesAux [] cur sp inRun acc = if cur > 0 then acc ++ [cur] else acc :=
  rfl

theorem calcAux_fill (c : Char) (cs : List Char) (cur sp : Nat) (inRun : Bool)
    (acc : List Nat) (hc : c = '-' ∨ c = '#') :
    calcDashesAux (c :: cs) cur sp inRun acc =
      calcDashesAux cs ((if sp > 1 then cur + (sp - 1) else cur) + 1) 0 true acc := by
  show (if c = '-' ∨ c = '#' then _ else _) = _
  rw [if_pos hc]

theorem calcAux_space (cs : List Char) (cur sp : Nat) (acc : List Nat) :
    calcDashesAux (' ' :: cs) cur sp true acc =
      if sp = 0 then calcDashesAux cs 0 (sp + 1) true (acc ++ [cur])
      else calcDashesAux cs cur (sp + 1) true acc := by
  show (if (' ' = '-' ∨ ' ' = '#') then _
    else if ' ' = ' ' then if (true : Bool) then _ else _ else _) = _
  rw [if_neg (by simp), if_pos rfl, if_pos rfl]

theorem calcDashesAux_fillRun0 (t : List Char) (hf : allFill t) :
    ∀ rest cur acc, calcDashesAux (t ++ rest) cur 0 true acc =
      calcDashesAux rest (cur + t.length) 0 true acc := by
  induction t with
  | nil => intro rest cur acc; simp
  | cons c t ih =>
    intro rest cur acc
    have hc : c = '-' ∨ c = '#' := hf c (List.mem_cons_self c t)
    have ht : allFill t := fun d hd => hf d (List.mem_cons_of_mem c hd)
    have h01 : ¬ ((0 : Nat) > 1) := by omega
    rw [List.cons_append, calcAux_fill c _ _ _ _ _ hc, if_neg h01, ih ht]
    congr 1
    simp [List.length_cons]
    omega

theorem calcDashesAux_fillRun (c : Char) (t : List Char)
    (hc : c = '-' ∨ c = '#') (hf : allFill t) :
    ∀ rest cur sp b acc, calcDashesAux (c :: (t ++ rest)) cur sp b acc =
      calcDashesAux rest ((if sp > 1 then cur + (sp - 1) else cur) + 1 + t.length)
        0 true acc := by
  intro rest cur sp b acc
  rw [calcAux_fill c _ _ _ _ _ hc, calcDashesAux_fillRun0 t hf]

theorem calcDashesAux_fillRunEnd (c : Char) (t : List Char)
    (hc : c = '-' ∨ c = '#') (hf : allFill t) (cur sp : Nat) (b : Bool)
    (acc : List Nat) :
    calcDashesAux (c :: t) cur sp b acc =
      calcDashesAux [] ((if sp > 1 then cur + (sp - 1) else cur) + 1 + t.length)
        0 true acc := by
  have h := calcDashesAux_fillRun c t hc hf [] cur sp b acc
  rwa [List.append_nil] at h

theorem calcDashesAux_spaces (j : Nat) :
    ∀ rest sp acc, 1 ≤ sp →
      calcDashesAux (List.replicate j ' ' ++ rest) 0 sp true acc =
      calcDashesAux rest 0 (sp + j) true acc := by
  induction j with
  | zero => intro rest sp acc _; simp
  | succ j ih =>
    intro rest sp acc hsp
    have hsp0 : ¬ (sp = 0) := by omega
    rw [List.replicate_succ, List.cons_append, calcAux_space, if_neg hsp0,
      ih rest (sp + 1) acc (by omega)]
    congr 1
    omega

theorem calcDashesAux_spaceRun (k : Nat) (hk : 1 ≤ k) :
    ∀ rest cur acc, calcDashesAux (List.replicate k ' ' ++ rest) cur 0 true acc =
      calcDashesAux rest 0 k true (acc ++ [cur]) := by
  intro rest cur acc
  obtain ⟨j, rfl⟩ : ∃ j, k = j + 1 := ⟨k - 1, by omega⟩
  rw [List.replicate_succ, List.cons_append, calcAux_space, if_pos rfl,
    calcDashesAux_spaces j rest (0 + 1) (acc ++ [cur]) (by omega)]
  congr 1
  omega

theorem calcDashesAux_sepJoin (runs : List (List Char))
    (h : ∀ r ∈ runs, r ≠ [] ∧ allFill r) :
    ∀ acc sp b, sp ≤ 1 →
      calcDashesAux (sepJoin runs) 0 sp b acc = acc ++ runs.map List.length := by
  induction runs with
  | nil => intro acc sp b _; simp [sepJoin, calcAux_nil]
  | cons r rs ih =>
    intro acc sp b hsp
    obtain ⟨hne, hfill⟩ := h r (List.mem_cons_self r rs)
    obtain ⟨c, t, rfl⟩ : ∃ c t, r = c :: t := by
      cases r with
      | nil => exact absurd rfl hne
      | cons c t => exact ⟨c, t, rfl⟩
    have hc : c = '-' ∨ c = '#' := hfill c (List.mem_cons_self c t)
    have ht : allFill t := fun d hd => hfill d (List.mem_cons_of_mem c hd)
    have hns : ¬ (sp > 1) := by omega
    cases rs with
    | nil =>
      rw [show sepJoin [c :: t] = c :: t from rfl,
        calcDashesAux_fillRunEnd c t hc ht, if_neg hns, calcAux_nil,
        if_pos (by omega)]
      simp [List.length_cons]
      omega
    | cons r2 rs2 =>
      rw [show sepJoin ((c :: t) :: r2 :: rs2) =
            c :: (t ++ ' ' :: sepJoin (r2 :: rs2)) from rfl,
        calcDashesAux_fillRun c t hc ht, if_neg hns, calcAux_space, if_pos rfl,
        ih (fun x hx => h x (List.mem_cons_of_mem _ hx)) _ (0 + 1) true (by omega)]
      simp [List.length_cons, List.append_assoc, Nat.add_comm]

/-- Claim C2: on a dash line made of fill runs (`-`/`#`) separated by exactly
one space each, `Header::calculate_dashes` returns exactly one width per
run, equal to that run's character count, in left-to-right order; in
particular it maps `"#---- --- ----------"` to `[5, 3, 10]`. -/
theorem calculate_dashes_single_space_runs (runs : List (List Char))
    (h : ∀ r ∈ runs, r ≠ [] ∧ ∀ c ∈ r, c = '-' ∨ c = '#') :
    calcDashes (sepJoin runs) = runs.map List.length ∧
      calcDashes "#---- --- ----------".toList = [5, 3, 10] :=
  ⟨calcDashesAux_sepJoin runs h [] 0 false (by omega), by decide⟩

/-- Witness for C2 at the spec's own example, split into its three runs. -/
theorem calculate_dashes_single_space_runs_witness :
    (∀ r ∈ [['#', '-', '-', '-', '-'], ['-', '-', '-'],
      ['-', '-', '-', '-', '-', '-', '-', '-', '-', '-']],
        r ≠ ([] : List Char) ∧ ∀ c ∈ r, c = '-' ∨ c = '#') ∧
    calcDashes (sepJoin [['#', '-', '-', '-', '-'], ['-', '-', '-'],
      ['-', '-', '-', '-', '-', '-', '-', '-', '-', '-']]) = [5, 3, 10] :=
  ⟨by decide, (calculate_dashes_single_space_runs _ (by decide)).1⟩

/-- Claim C7: in `Header::calculate_dashes`, `k ≥ 2` spaces between two fill
runs close the first column at the first space and fold the `k - 1` extra
spaces into the following column: runs of lengths `a` and `b` separated by
`k` spaces yield the widths `[a, b + k - 1]`. -/
theorem calculate_dashes_extra_spaces (a b k : Nat)
    (ha : 0 < a) (hb : 0 < b) (hk : 2 ≤ k) :
    calcDashes (List.replicate a '-' ++ List.replicate k ' ' ++
      List.replicate b '-') = [a, b + k - 1] := by
  obtain ⟨a', rfl⟩ : ∃ a', a = a' + 1 := ⟨a - 1, by omega⟩
  obtain ⟨b', rfl⟩ : ∃ b', b = b' + 1 := ⟨b - 1, by omega⟩
  have hrepl : ∀ n, allFill (List.replicate n '-') :=
    fun n c hc => Or.inl (List.eq_of_mem_replicate hc)
  unfold calcDashes
  rw [List.append_assoc, List.replicate_succ, List.cons_append,
    calcDashesAux_fillRun '-' _ (Or.inl rfl) (hrepl a'),
    if_neg (by omega : ¬ ((0 : Nat) > 1)),
    calcDashesAux_spaceRun k (by omega),
    List.replicate_succ,
    calcDashesAux_fillRunEnd '-' _ (Or.inl rfl) (hrepl b'),
    if_pos (by omega : k > 1), calcAux_nil, if_pos (by omega)]
  simp [List.length_replicate]
  constructor <;> omega

/-- Witness for C7 at `a = 2`, `b = 3`, `k = 2`. -/
theorem calculate_dashes_extra_spaces_witness :
    calcDashes (List.replicate 2 '-' ++ List.replicate 2 ' ' ++
      List.replicate 3 '-') = [2, 3 + 2 - 1] :=
  calculate_dashes_extra_spaces 2 3 2 (by decide) (by decide) (by decide)

/-- Claim C8: the `Program` string parser accepts exactly the eight known
lowercase program names, case-sensitively, mapping each to its variant, and
returns an `ErrorKind::Meta` error for every other string (case variants
included, since they are not among the eight lists of characters). -/
theorem program_from_str_exact :
    programFromStr "nhmmer".toList = .ok .Nhmmer ∧
    programFromStr "nhmmscan".toList = .ok .Nhmmscan ∧
    programFromStr "jackhmmer".toList = .ok .Jackhmmer ∧
    programFromStr "hmmscan".toList = .ok .Hmmscan ∧
    programFromStr "hmmsearch".toList = .ok .Hmmsearch ∧
    programFromStr "phmmer".toList = .ok .Phmmer ∧
    programFromStr "cmsearch".toList = .ok .Cmsearch ∧
    programFromStr "cmscan".toList = .ok .Cmscan ∧
    ∀ s : List Char, s ∉ programNames →
      programFromStr s = .error (.meta (programErrMsg s)) := by
  refine ⟨by decide, by decide, by decide, by decide, by decide, by decide,
    by decide, by decide, ?_⟩
  intro s hs
  have h1 : ¬ (s = "nhmmer".toList) := fun h => hs (by rw [h]; simp [programNames])
  have h2 : ¬ (s = "nhmmscan".toList) := fun h => hs (by rw [h]; simp [programNames])
  have h3 : ¬ (s = "jackhmmer".toList) := fun h => hs (by rw [h]; simp [programNames])
  have h4 : ¬ (s = "hmmscan".toList) := fun h => hs (by rw [h]; simp [programNames])
  have h5 : ¬ (s = "hmmsearch".toList) := fun h => hs (by rw [h]; simp [programNames])
  have h6 : ¬ (s = "phmmer".toList) := fun h => hs (by rw [h]; simp [programNames])
  have h7 : ¬ (s = "cmsearch".toList) := fun h => hs (by rw [h]; simp [programNames])
  have h8 : ¬ (s = "cmscan".toList) := fun h => hs (by rw [h]; simp [programNames])
  unfold programFromStr
  rw [if_neg h1, if_neg h2, if_neg h3, if_neg h4, if_neg h5, if_neg h6,
    if_neg h7, if_neg h8]

/-- Witness for C8: the uppercase variant of an accepted name is rejected
with the formatted `Meta` error. -/
theorem program_from_str_exact_witness :
    "NHMMER".toList ∉ programNames ∧
      programFromStr "NHMMER".toList =
        .error (.meta (programErrMsg "NHMMER".toList)) :=
  ⟨by decide, program_from_str_exact.2.2.2.2.2.2.2.2 _ (by decide)⟩

/-! ## `HeaderReader::read_header` (`reader.rs` lines 28-85)

Input is modelled as the list of lines of the file.  The trailing `'\n'`
kept by `read_line` is dropped from each modelled line: it only ever sits
at the very end of a line, where `remove_whitespace` filters it out and the
substring tests are unaffected. -/

/-- `a` is a leading segment of `b`. -/
def leadChars : List Char → List Char → Bool
  | [], _ => true
  | _ :: _, [] => false
  | a :: as, b :: bs => a = b && leadChars as bs

/-- Rust `str::contains` for a literal needle. -/
def containsSub (needle : List Char) : List Char → Bool
  | [] => leadChars needle []
  | c :: rest => leadChars needle (c :: rest) || containsSub needle rest

/-- `line.starts_with('#')`. -/
def startsHash : List Char → Bool
  | [] => false
  | c :: _ => c == '#'

/-- The local `remove_whitespace` helper of `read_header`. -/
def removeWs (l : List Char) : List Char := l.filter (fun c => !(isWs c))

/-- The local `is_single_char` helper of `read_header`: non-empty and every
character equal to the first. -/
def isSingleChar : List Char → Bool
  | [] => false
  | c :: rest => rest.all (fun d => d == c)

/-- `line.strip_prefix('#').unwrap()`.  The non-`#` case cannot happen at
the call site (it is guarded by `starts_with('#')`). -/
def stripHash : List Char → List Char
  | '#' :: rest => rest
  | l => l

/-- The three structural lines a header may carry (`record.rs`), all raw
text, all defaulting to absent/empty. -/
structure Header where
  protein_only : Option (List Char) := none
  columns : List Char := []
  dashes : List Char := []
deriving DecidableEq

/-- The loop body of `HeaderReader::read_header`, line by line.  The source
declares `let mut hash_counter = 1;` inside the loop, so the counter is
reset on every iteration: it is 2 after a comment line that matches none of
the three checks and 1 after a non-comment line, hence the
`if hash_counter > 3 break` test below is written with those literal values
and can never fire — the loop only ends at end of input. -/
def read_header : List (List Char) → Header → Header
  | [], header => header
  | line :: rest, header =>
    if startsHash line then
      if containsSub "full sequence".toList line then
        read_header rest {header with protein_only := some line}
      else if containsSub "target name".toList line then
        read_header rest {header with columns := line}
      else if isSingleChar (removeWs (stripHash line)) then
        read_header rest {header with dashes := line}
      else
        if 2 > 3 then header else read_header rest header
    else
      if 1 > 3 then header else read_header rest header

/-- `HeaderReader::read_header` from the initial `Header::default()`. -/
def readHeader (lines : List (List Char)) : Header := read_header lines {}

/-- Claim C4 is false on the code (`reader.rs` lines 38 and 76): because
`hash_counter` is re-initialised to 1 on every loop iteration, the scan
stops neither at the first non-comment line nor after more than 3 misses.
Here the dash line is found *behind* a leading data line (first conjunct)
and *behind* five consecutive miss lines (second conjunct), so both claimed
stopping bounds are crossed. -/
theorem header_scanner_reads_past_bounds :
    (readHeader ["seq1 acc1 q1".toList, "# ----".toList]).dashes =
      "# ----".toList ∧
    (readHeader ["# a b".toList, "# a b".toList, "# a b".toList,
      "# a b".toList, "# a b".toList, "# ----".toList]).dashes =
      "# ----".toList := by decide

/-! ## `MetaReader::read_meta` (`reader.rs` lines 103-167)

Lines are again modelled without their trailing `'\n'`: the separator
`": "` never matches across the final newline, and `trim` discards it from
the last split piece, so the two presentations agree. -/

/-- Rust `str::trim`. -/
def trimWs (l : List Char) : List Char :=
  ((l.dropWhile isWs).reverse.dropWhile isWs).reverse

/-- Rust `line.split(": ")`: split at every non-overlapping occurrence of
`": "`, scanning left to right. -/
def splitColonSpace : List Char → List (List Char)
  | [] => [[]]
  | [c] => [[c]]
  | c :: d :: rest =>
    if c = ':' ∧ d = ' ' then [] :: splitColonSpace rest
    else
      match splitColonSpace (d :: rest) with
      | [] => [[c]]
      | h :: t => (c :: h) :: t

/-- The run metadata (`record.rs`), every field defaulted as
`Meta::default()` does. -/
structure Meta where
  program : Program := .None
  version : List Char := []
  pipeline_mode : List Char := []
  query_file : List Char := []
  target_file : List Char := []
  options : List Char := []
  current_dir : List Char := []
  date : List Char := []
deriving DecidableEq

/-- The `match first { ... }` of `read_meta`.  On the `"# Program"` arm the
source calls `Program::from_str(&rest).unwrap()`: a parse failure aborts
the process instead of surfacing the `ErrorKind::Meta` value. -/
def metaKeyUpdate (m : Meta) (first rest : List Char) : RunResult Meta :=
  if first = "# Program".toList then
    match programFromStr rest with
    | .ok p => .ok {m with program := p}
    | .error _ => .panicked
  else if first = "# Version".toList then .ok {m with version := rest}
  else if first = "# Pipeline mode".toList then .ok {m with pipeline_mode := rest}
  else if first = "# Query file".toList then .ok {m with query_file := rest}
  else if first = "# Target file".toList then .ok {m with target_file := rest}
  else if first = "# Option settings".toList then .ok {m with options := rest}
  else if first = "# Current dir".toList then .ok {m with current_dir := rest}
  else if first = "# Date".toList then .ok {m with date := rest}
  else .ok m

/-- Processing of one metadata line from the fourth comment line on: split
on every `": "`, trim every piece, pop the first as the key and re-join the
remaining pieces with a single space. -/
def metaProcessLine (m : Meta) (line : List Char) : RunResult Meta :=
  match (splitColonSpace line).map trimWs with
  | [] => .ok m
  | first :: restPieces =>
      metaKeyUpdate m first (List.intercalate [' '] restPieces)

/-- One iteration of the `read_meta` loop, carrying the comment-line
counter. -/
def readMetaStep (st : Nat × Meta) (line : List Char) : RunResult (Nat × Meta) :=
  let hc := if startsHash line then st.1 + 1 else st.1
  if startsHash line then
    if hc ≥ 4 then (metaProcessLine st.2 line).map (fun m => (hc, m))
    else .ok (hc, st.2)
  else .ok (hc, st.2)

/-- Effectful left fold, short-circuiting on errors and aborts. -/
def runFold {σ α : Type} (f : σ → α → RunResult σ) : σ → List α → RunResult σ
  | s, [] => .ok s
  | s, a :: as =>
    match f s a with
    | .ok s2 => runFold f s2 as
    | .err e => .err e
    | .panicked => .panicked

/-- `MetaReader::read_meta` over the lines of the input. -/
def readMetaLines (lines : List (List Char)) : RunResult Meta :=
  (runFold readMetaStep (0, ({} : Meta)) lines).map (fun st => st.2)

/-- The record-schema classes a `Program` selects. -/
inductive SchemaKind where
  | dna
  | protein
  | cm
deriving DecidableEq

/-- `RecordsIter::new` (`reader.rs` lines 292-302): schema selection from
the program; the `Program::None` arm is `unreachable!()`, i.e. a panic. -/
def recordsIterNew : Program → RunResult SchemaKind
  | .Nhmmer | .Nhmmscan => .ok .dna
  | .Jackhmmer | .Hmmscan | .Hmmsearch | .Phmmer => .ok .protein
  | .Cmsearch | .Cmscan => .ok .cm
  | .None => .panicked

/-- Claim C1 is false on the code: an unrecognized `"# Program"` value makes
`read_meta` abort through `Program::from_str(..).unwrap()` (`reader.rs`
line 143) instead of returning the typed `ErrorKind::Meta` error that
`from_str` itself produces (third conjunct), and constructing the record
iterator while the program is still unknown hits `unreachable!()`
(`reader.rs` line 300) instead of returning an error. -/
theorem unknown_program_panics :
    readMetaLines ["#".toList, "#".toList, "#".toList,
      "# Program: unknown_tool".toList] = .panicked ∧
    recordsIterNew .None = .panicked ∧
    programFromStr "unknown_tool".toList =
      .error (.meta (programErrMsg "unknown_tool".toList)) := by decide

/-- Claim C6 is false on the code (`reader.rs` lines 130-140, and the FIXME
comment there): the line is split at *every* occurrence of `": "`, each
piece is trimmed, and the tail pieces are re-joined with one space — so a
value containing `": "` is not stored unchanged.  On the fourth comment
line `"# Date: a: b"` the stored date is `"a b"`, not the claimed
`"a: b"`. -/
theorem meta_value_not_split_at_first_only :
    readMetaLines ["#".toList, "#".toList, "#".toList,
      "# Date: a: b".toList] = .ok {date := "a b".toList} ∧
    "a b".toList ≠ "a: b".toList := by decide

/-! ## Rust `str::split_whitespace`

Used by all three record decoders: split on runs of whitespace, producing
no empty tokens. -/

/-- Worker: `acc` holds the reversed token currently being read. -/
def splitWsAux : List Char → List Char → List (List Char)
  | [], acc => if acc.isEmpty then [] else [acc.reverse]
  | c :: cs, acc =>
    if isWs c then
      if acc.isEmpty then splitWsAux cs []
      else acc.reverse :: splitWsAux cs []
    else splitWsAux cs (c :: acc)

/-- `str::split_whitespace`, collected into a list of tokens. -/
def splitWs (l : List Char) : List (List Char) := splitWsAux l []

/-- Every character is whitespace. -/
def allWsP (u : List Char) : Prop := ∀ c ∈ u, isWs c = true

/-- No character is whitespace. -/
def wsFree (t : List Char) : Prop := ∀ c ∈ t, isWs c = false

theorem splitWsAux_allWs (u : List Char) (hu : allWsP u) :
    ∀ acc, splitWsAux u acc = splitWsAux [] acc := by
  induction u with
  | nil => intro acc; rfl
  | cons c u ih =>
    intro acc
    have hc : isWs c = true := hu c (List.mem_cons_self c u)
    have hu2 : allWsP u := fun d hd => hu d (List.mem_cons_of_mem c hd)
    cases acc with
    | nil => simp [splitWsAux, hc, ih hu2]
    | cons a as =>
      simp [splitWsAux, hc]
      rw [ih hu2 []]
      rfl

theorem splitWsAux_leading (u : List Char) (hu : allWsP u) (l : List Char) :
    splitWsAux (u ++ l) [] = splitWsAux l [] := by
  induction u with
  | nil => rfl
  | cons c u ih =>
    have hc : isWs c = true := hu c (List.mem_cons_self c u)
    have hu2 : allWsP u := fun d hd => hu d (List.mem_cons_of_mem c hd)
    simp [splitWsAux, hc, ih hu2]

theorem splitWsAux_tok (t : List Char) (ht : wsFree t) :
    ∀ l acc, splitWsAux (t ++ l) acc = splitWsAux l (t.reverse ++ acc) := by
  induction t with
  | nil => intro l acc; simp
  | cons c t ih =>
    intro l acc
    have hc : isWs c = false := ht c (List.mem_cons_self c t)
    have ht2 : wsFree t := fun d hd => ht d (List.mem_cons_of_mem c hd)
    rw [List.cons_append]
    rw [show splitWsAux (c :: (t ++ l)) acc = splitWsAux (t ++ l) (c :: acc) from by
      simp [splitWsAux, hc]]
    rw [ih ht2 l (c :: acc)]
    simp [List.append_assoc]

theorem splitWsAux_break (c : Char) (hc : isWs c = true) (l : List Char)
    (a : Char) (as : List Char) :
    splitWsAux (c :: l) (a :: as) = (a :: as).reverse :: splitWsAux l [] := by
  simp [splitWsAux, hc]

theorem splitWsAux_trailing (u : List Char) (hu : allWsP u) :
    ∀ l acc, splitWsAux (l ++ u) acc = splitWsAux l acc := by
  intro l
  induction l with
  | nil => intro acc; exact splitWsAux_allWs u hu acc
  | cons c l ih =>
    intro acc
    by_cases hcw : isWs c
    · cases acc with
      | nil => simp [splitWsAux, hcw, ih]
      | cons a as => simp [splitWsAux, hcw, ih]
    · simp only [Bool.not_eq_true] at hcw
      simp [splitWsAux, hcw, ih]

/-- The central tokenization fact: a non-empty whitespace-free token wrapped
in whitespace, with at least one whitespace character behind it, is cut out
as the next token. -/
theorem splitWs_sep (w1 t w2 rest : List Char) (h1 : allWsP w1) (ht : t ≠ [])
    (htw : wsFree t) (h2 : allWsP w2) (h2ne : w2 ≠ []) :
    splitWs (w1 ++ (t ++ (w2 ++ rest))) = t :: splitWs rest := by
  unfold splitWs
  rw [splitWsAux_leading w1 h1, splitWsAux_tok t htw, List.append_nil]
  obtain ⟨c, w2', rfl⟩ : ∃ c w2', w2 = c :: w2' := by
    cases w2 with
    | nil => exact absurd rfl h2ne
    | cons c w2' => exact ⟨c, w2', rfl⟩
  obtain ⟨a, as, hrev⟩ : ∃ a as, t.reverse = a :: as := by
    cases hr : t.reverse with
    | nil => exact absurd (by simpa using congrArg List.reverse hr) ht
    | cons a as => exact ⟨a, as, rfl⟩
  rw [List.cons_append, hrev,
    splitWsAux_break c (h2 c (List.mem_cons_self c w2')) _ a as,
    splitWsAux_leading w2' (fun d hd => h2 d (List.mem_cons_of_mem c hd)),
    ← hrev, List.reverse_reverse]

/-! ## Column justification (Rust `format!` width specifiers) -/

/-- `{:<w$}`: left-justify, pad on the right with spaces. -/
def lj (w : Nat) (t : List Char) : List Char :=
  t ++ List.replicate (w - t.length) ' '

/-- `{:>w$}`: right-justify, pad on the left with spaces. -/
def rj (w : Nat) (t : List Char) : List Char :=
  List.replicate (w - t.length) ' ' ++ t

/-- `{:^w$}`: center, extra space on the right. -/
def cj (w : Nat) (t : List Char) : List Char :=
  List.replicate ((w - t.length) / 2) ' ' ++ t ++
    List.replicate (w - t.length - (w - t.length) / 2) ' '

theorem allWsP_rep (n : Nat) : allWsP (List.replicate n ' ') := by
  intro c hc
  rw [List.eq_of_mem_replicate hc]
  decide

theorem allWsP_append (u v : List Char) (hu : allWsP u) (hv : allWsP v) :
    allWsP (u ++ v) := by
  intro c hc
  rcases List.mem_append.mp hc with h | h
  · exact hu c h
  · exact hv c h

theorem splitWs_lj_sep (w : Nat) (t rest : List Char) (ht : t ≠ [])
    (htw : wsFree t) :
    splitWs (lj w t ++ (' ' :: rest)) = t :: splitWs rest := by
  have hshape : lj w t ++ (' ' :: rest) =
      [] ++ (t ++ ((List.replicate (w - t.length) ' ' ++ [' ']) ++ rest)) := by
    simp [lj, List.append_assoc]
  rw [hshape]
  exact splitWs_sep _ _ _ _ (fun c hc => absurd hc (List.not_mem_nil c)) ht htw
    (allWsP_append _ _ (allWsP_rep _) (by intro c hc; simp at hc; rw [hc]; decide))
    (by simp)

theorem splitWs_rj_sep (w : Nat) (t rest : List Char) (ht : t ≠ [])
    (htw : wsFree t) :
    splitWs (rj w t ++ (' ' :: rest)) = t :: splitWs rest := by
  have hshape : rj w t ++ (' ' :: rest) =
      List.replicate (w - t.length) ' ' ++ (t ++ ([' '] ++ rest)) := by
    simp [rj, List.append_assoc]
  rw [hshape]
  exact splitWs_sep _ _ _ _ (allWsP_rep _) ht htw
    (by intro c hc; simp at hc; rw [hc]; decide) (by simp)

theorem splitWs_cj_sep (w : Nat) (t rest : List Char) (ht : t ≠ [])
    (htw : wsFree t) :
    splitWs (cj w t ++ (' ' :: rest)) = t :: splitWs rest := by
  have hshape : cj w t ++ (' ' :: rest) =
      List.replicate ((w - t.length) / 2) ' ' ++
        (t ++ ((List.replicate (w - t.length - (w - t.length) / 2) ' ' ++ [' ']) ++
          rest)) := by
    simp [cj, List.append_assoc]
  rw [hshape]
  exact splitWs_sep _ _ _ _ (allWsP_rep _) ht htw
    (allWsP_append _ _ (allWsP_rep _) (by intro c hc; simp at hc; rw [hc]; decide))
    (by simp)

theorem splitWs_lj_last (w : Nat) (d : List Char) :
    splitWs (lj w d) = splitWs d := by
  unfold splitWs lj
  rw [splitWsAux_trailing _ (allWsP_rep _)]

/-! ## Decimal integer formatting and `str::parse::<i32>`

The `Display` implementation for `i32` and `i32::from_str` are `std`
functions called by the source; they are modelled here: decimal digits,
optional leading `+`/`-` sign on parsing, magnitude bound of `i32` on
overflow. -/

/-- One decimal digit as a character. -/
def digitChar (d : Nat) : Char :=
  if d = 0 then '0' else if d = 1 then '1' else if d = 2 then '2'
  else if d = 3 then '3' else if d = 4 then '4' else if d = 5 then '5'
  else if d = 6 then '6' else if d = 7 then '7' else if d = 8 then '8' else '9'

/-- Decimal digits of a natural number, most significant first; the fuel is
always sufficient at the call site. -/
def natToDigitsAux : Nat → Nat → List Char
  | 0, _ => []
  | fuel + 1, n =>
    if n < 10 then [digitChar n]
    else natToDigitsAux fuel (n / 10) ++ [digitChar (n % 10)]

/-- Decimal rendering of a natural number. -/
def natToDigits (n : Nat) : List Char := natToDigitsAux (n + 1) n

/-- Rust `i32` `Display`: minus sign followed by the magnitude. -/
def intRender (n : Int) : List Char :=
  if n < 0 then '-' :: natToDigits (-n).toNat else natToDigits n.toNat

/-- Numeric value of one decimal digit character. -/
def digitVal (c : Char) : Option Nat :=
  if c = '0' then some 0 else if c = '1' then some 1 else if c = '2' then some 2
  else if c = '3' then some 3 else if c = '4' then some 4 else if c = '5' then some 5
  else if c = '6' then some 6 else if c = '7' then some 7 else if c = '8' then some 8
  else if c = '9' then some 9 else none

/-- Accumulating decimal parser. -/
def parseDigitsAux : List Char → Nat → Option Nat
  | [], acc => some acc
  | c :: rest, acc => (digitVal c).bind (fun d => parseDigitsAux rest (acc * 10 + d))

/-- At least one digit, all digits. -/
def parseDigits : List Char → Option Nat
  | [] => none
  | c :: rest => parseDigitsAux (c :: rest) 0

/-- Sign handling of `str::parse::<i32>`, split out on the first
character. -/
def parseI32Signed (c : Char) (rest : List Char) : Option Int :=
  if c = '+' then
    (parseDigits rest).bind
      (fun n => if n ≤ 2147483647 then some (n : Int) else none)
  else if c = '-' then
    (parseDigits rest).bind
      (fun n => if n ≤ 2147483648 then some (-(n : Int)) else none)
  else
    (parseDigits (c :: rest)).bind
      (fun n => if n ≤ 2147483647 then some (n : Int) else none)

/-- `str::parse::<i32>`: optional sign, decimal digits, overflow check. -/
def parseI32 : List Char → Option Int
  | [] => none
  | c :: rest => parseI32Signed c rest

theorem digitVal_digitChar (d : Nat) (hd : d < 10) :
    digitVal (digitChar d) = some d := by
  interval_cases d <;> decide

theorem digitChar_not_ws (d : Nat) (hd : d < 10) : isWs (digitChar d) = false := by
  interval_cases d <;> decide

theorem digitChar_not_sign (d : Nat) (hd : d < 10) :
    digitChar d ≠ '+' ∧ digitChar d ≠ '-' := by
  interval_cases d <;> decide

theorem parseDigitsAux_append (l1 : List Char) :
    ∀ l2 acc, parseDigitsAux (l1 ++ l2) acc =
      (parseDigitsAux l1 acc).bind (fun m => parseDigitsAux l2 m) := by
  induction l1 with
  | nil => intro l2 acc; rfl
  | cons c l ih =>
    intro l2 acc
    simp only [List.cons_append, parseDigitsAux]
    cases hdv : digitVal c with
    | none => rfl
    | some d => simp [ih]

theorem natToDigitsAux_spec :
    ∀ fuel n, n < fuel → ∀ acc, ∃ P : Nat,
      parseDigitsAux (natToDigitsAux fuel n) acc = some (acc * P + n) := by
  intro fuel
  induction fuel with
  | zero => intro n h; exact absurd h (Nat.not_lt_zero n)
  | succ fuel ih =>
    intro n h acc
    by_cases h10 : n < 10
    · refine ⟨10, ?_⟩
      simp only [natToDigitsAux, if_pos h10]
      show (digitVal (digitChar n)).bind (fun d => parseDigitsAux [] (acc * 10 + d)) = _
      rw [digitVal_digitChar n h10]
      simp [parseDigitsAux]
    · have hdiv : n / 10 < fuel := by omega
      obtain ⟨P, hP⟩ := ih (n / 10) hdiv acc
      refine ⟨P * 10, ?_⟩
      simp only [natToDigitsAux, if_neg h10]
      rw [parseDigitsAux_append, hP]
      simp only [Option.some_bind]
      show (digitVal (digitChar (n % 10))).bind
        (fun d => parseDigitsAux [] ((acc * P + n / 10) * 10 + d)) = _
      rw [digitVal_digitChar _ (by omega)]
      simp only [Option.some_bind, parseDigitsAux]
      congr 1
      have e1 : (acc * P + n / 10) * 10 + n % 10 =
          acc * P * 10 + (n / 10 * 10 + n % 10) := by ring
      have e2 : n / 10 * 10 + n % 10 = n := by omega
      rw [e1, e2]
      ring

theorem natToDigitsAux_ne_nil (fuel n : Nat) (h : n < fuel) :
    natToDigitsAux fuel n ≠ [] := by
  cases fuel with
  | zero => exact absurd h (Nat.not_lt_zero n)
  | succ fuel =>
    simp only [natToDigitsAux]
    by_cases h10 : n < 10
    · simp [h10]
    · simp [h10]

theorem natToDigitsAux_head :
    ∀ fuel n, n < fuel → ∃ d cs, d < 10 ∧ natToDigitsAux fuel n = digitChar d :: cs := by
  intro fuel
  induction fuel with
  | zero => intro n h; exact absurd h (Nat.not_lt_zero n)
  | succ fuel ih =>
    intro n h
    by_cases h10 : n < 10
    · exact ⟨n, [], h10, by simp [natToDigitsAux, h10]⟩
    · obtain ⟨d, cs, hd, heq⟩ := ih (n / 10) (by omega)
      exact ⟨d, cs ++ [digitChar (n % 10)], hd, by
        simp [natToDigitsAux, h10, heq]⟩

theorem natToDigitsAux_chars :
    ∀ fuel n c, c ∈ natToDigitsAux fuel n → ∃ d, d < 10 ∧ c = digitChar d := by
  intro fuel
  induction fuel with
  | zero => intro n c hc; simp [natToDigitsAux] at hc
  | succ fuel ih =>
    intro n c hc
    by_cases h10 : n < 10
    · simp [natToDigitsAux, h10] at hc
      exact ⟨n, h10, hc⟩
    · simp [natToDigitsAux, h10] at hc
      rcases hc with hc | hc
      · exact ih (n / 10) c hc
      · exact ⟨n % 10, by omega, hc⟩

theorem natToDigits_wsFree (n : Nat) : wsFree (natToDigits n) := by
  intro c hc
  obtain ⟨d, hd, rfl⟩ := natToDigitsAux_chars (n + 1) n c hc
  exact digitChar_not_ws d hd

theorem natToDigits_ne_nil (n : Nat) : natToDigits n ≠ [] :=
  natToDigitsAux_ne_nil (n + 1) n (by omega)

theorem parseDigits_natToDigits (n : Nat) : parseDigits (natToDigits n) = some n := by
  obtain ⟨d, cs, hd, heq⟩ := natToDigitsAux_head (n + 1) n (by omega)
  obtain ⟨P, hP⟩ := natToDigitsAux_spec (n + 1) n (by omega) 0
  unfold natToDigits
  rw [heq]
  show parseDigitsAux (digitChar d :: cs) 0 = some n
  rw [← heq, hP]
  simp

theorem intRender_wsFree (n : Int) : wsFree (intRender n) := by
  intro c hc
  unfold intRender at hc
  by_cases hn : n < 0
  · rw [if_pos hn] at hc
    rcases List.mem_cons.mp hc with rfl | hc
    · decide
    · exact natToDigits_wsFree _ c hc
  · rw [if_neg hn] at hc
    exact natToDigits_wsFree _ c hc

theorem intRender_ne_nil (n : Int) : intRender n ≠ [] := by
  unfold intRender
  by_cases hn : n < 0
  · simp [hn]
  · simp [hn, natToDigits_ne_nil]

theorem parseI32_intRender (n : Int) (h1 : -2147483648 ≤ n)
    (h2 : n ≤ 2147483647) : parseI32 (intRender n) = some n := by
  unfold intRender
  by_cases hn : n < 0
  · rw [if_pos hn]
    show parseI32Signed '-' (natToDigits (-n).toNat) = some n
    unfold parseI32Signed
    rw [if_neg (by decide), if_pos rfl, parseDigits_natToDigits]
    simp only [Option.some_bind]
    rw [if_pos (by omega)]
    congr 1
    omega
  · rw [if_neg hn]
    obtain ⟨d, cs, hd, heq⟩ := natToDigitsAux_head (n.toNat + 1) n.toNat (by omega)
    have heq2 : natToDigits n.toNat = digitChar d :: cs := heq
    rw [heq2]
    show parseI32Signed (digitChar d) cs = some n
    unfold parseI32Signed
    rw [if_neg (digitChar_not_sign d hd).1, if_neg (digitChar_not_sign d hd).2,
      ← heq2, parseDigits_natToDigits]
    simp only [Option.some_bind]
    rw [if_pos (by omega)]
    congr 1
    omega

/-! ## The `Strand` codec (`record.rs`) -/

/-- Hit orientation. -/
inductive Strand where
  | Positive
  | Negative
deriving DecidableEq

/-- `impl FromStr for Strand`: only `"+"` and `"-"` are accepted. -/
def strandFromStr (l : List Char) : Except ErrorKind Strand :=
  if l = "+".toList then .ok .Positive
  else if l = "-".toList then .ok .Negative
  else .error (.readRecord "The input was neither `-` nor `+`.".toList)

/-- `impl Display for Strand`. -/
def strandChars : Strand → List Char
  | .Positive => ['+']
  | .Negative => ['-']

theorem strandFromStr_strandChars (s : Strand) :
    strandFromStr (strandChars s) = .ok s := by
  cases s <;> decide

theorem strandChars_ne_nil (s : Strand) : strandChars s ≠ [] := by
  cases s <;> decide

theorem strandChars_wsFree (s : Strand) : wsFree (strandChars s) := by
  cases s <;> (intro c hc; simp [strandChars] at hc; rw [hc]; decide)

/-! ## Typed records (`record.rs`)

Rust `f32` fields are abstracted by a type parameter `F`; the `std`
formatting functions the `Display` implementations invoke on them (`{:e}`,
plain `{}`, `{:.1}`) and `str::parse::<f32>` are passed in as functions. -/

/-- `DNARecord` (`record.rs`). -/
structure DNARecordL (F : Type) where
  target_name : List Char
  target_accession : List Char
  query_name : List Char
  query_accession : List Char
  hmm_from : Int
  hmm_to : Int
  ali_from : Int
  ali_to : Int
  env_from : Int
  env_to : Int
  sq_len : Int
  strand : Strand
  e_value : F
  score : F
  bias : F
  description : List Char
  col_sizes : List Nat
deriving DecidableEq

/-- `ProteinRecord` (`record.rs`). -/
structure ProteinRecordL (F : Type) where
  target_name : List Char
  target_accession : List Char
  query_name : List Char
  query_accession : List Char
  e_value_full : F
  score_full : F
  bias_full : F
  e_value_best : F
  score_best : F
  bias_best : F
  exp : F
  reg : Int
  clu : Int
  ov : Int
  env : Int
  dom : Int
  rep : Int
  inc : Int
  description : List Char
  col_sizes : List Nat
deriving DecidableEq

/-- `CMRecord` (`record.rs`). -/
structure CMRecordL (F : Type) where
  target_name : List Char
  target_accession : List Char
  query_name : List Char
  query_accession : List Char
  mdl : List Char
  mdl_from : Int
  mdl_to : Int
  seq_from : Int
  seq_to : Int
  strand : Strand
  trunc : List Char
  pass : Int
  gc : F
  bias : F
  score : F
  e_value : F
  inc : Char
  description : List Char
  col_sizes : List Nat
deriving DecidableEq

/-- Rust `l_vec[i]`: out-of-bounds indexing is a panic, not an error. -/
def getTok (l : List (List Char)) (i : Nat) : RunResult (List Char) :=
  match l.get? i with
  | some t => .ok t
  | none => .panicked

/-- The `?`-conversion of a failed field coercion into the crate error. -/
def optParse {α : Type} (o : Option α) : RunResult α :=
  match o with
  | some a => .ok a
  | none => .err .parseField

/-- The `?`-propagation of a typed `Except` result. -/
def exceptToRun {α : Type} : Except ErrorKind α → RunResult α
  | .ok a => .ok a
  | .error e => .err e

/-- `str::parse::<char>`: succeeds exactly on one-character strings. -/
def parseCharTok : List Char → Option Char
  | [c] => some c
  | _ => none

section Decode

variable {F : Type}

/-- The per-line core of `Reader::read_dna_record` (`reader.rs` lines
478-539) on one line of input: comment lines are skipped (no record —
modelled as `none`), otherwise the line is whitespace-tokenized, tokens
0-14 are indexed positionally (an out-of-bounds index panics) and coerced,
and the remaining tokens are re-joined with single spaces as the
description. -/
def readDnaLine (parseF : List Char → Option F) (colSizes : List Nat)
    (line : List Char) : RunResult (Option (DNARecordL F)) :=
  if startsHash line then .ok none
  else
    let toks := splitWs line
    RunResult.bind (getTok toks 0) fun tn =>
    RunResult.bind (getTok toks 1) fun ta =>
    RunResult.bind (getTok toks 2) fun qn =>
    RunResult.bind (getTok toks 3) fun qa =>
    RunResult.bind (getTok toks 4) fun s4 =>
    RunResult.bind (optParse (parseI32 s4)) fun hmm_from =>
    RunResult.bind (getTok toks 5) fun s5 =>
    RunResult.bind (optParse (parseI32 s5)) fun hmm_to =>
    RunResult.bind (getTok toks 6) fun s6 =>
    RunResult.bind (optParse (parseI32 s6)) fun ali_from =>
    RunResult.bind (getTok toks 7) fun s7 =>
    RunResult.bind (optParse (parseI32 s7)) fun ali_to =>
    RunResult.bind (getTok toks 8) fun s8 =>
    RunResult.bind (optParse (parseI32 s8)) fun env_from =>
    RunResult.bind (getTok toks 9) fun s9 =>
    RunResult.bind (optParse (parseI32 s9)) fun env_to =>
    RunResult.bind (getTok toks 10) fun s10 =>
    RunResult.bind (optParse (parseI32 s10)) fun sq_len =>
    RunResult.bind (getTok toks 11) fun s11 =>
    RunResult.bind (exceptToRun (strandFromStr s11)) fun strand =>
    RunResult.bind (getTok toks 12) fun s12 =>
    RunResult.bind (optParse (parseF s12)) fun e_value =>
    RunResult.bind (getTok toks 13) fun s13 =>
    RunResult.bind (optParse (parseF s13)) fun score =>
    RunResult.bind (getTok toks 14) fun s14 =>
    RunResult.bind (optParse (parseF s14)) fun bias =>
    .ok (some {
      target_name := tn, target_accession := ta,
      query_name := qn, query_accession := qa,
      hmm_from := hmm_from, hmm_to := hmm_to,
      ali_from := ali_from, ali_to := ali_to,
      env_from := env_from, env_to := env_to, sq_len := sq_len,
      strand := strand, e_value := e_value, score := score, bias := bias,
      description := List.intercalate [' '] (toks.drop 15),
      col_sizes := colSizes })

/-- The per-line core of `Reader::read_protein_record` (`reader.rs` lines
542-608). -/
def readProteinLine (parseF : List Char → Option F) (colSizes : List Nat)
    (line : List Char) : RunResult (Option (ProteinRecordL F)) :=
  if startsHash line then .ok none
  else
    let toks := splitWs line
    RunResult.bind (getTok toks 0) fun tn =>
    RunResult.bind (getTok toks 1) fun ta =>
    RunResult.bind (getTok toks 2) fun qn =>
    RunResult.bind (getTok toks 3) fun qa =>
    RunResult.bind (getTok toks 4) fun s4 =>
    RunResult.bind (optParse (parseF s4)) fun e_value_full =>
    RunResult.bind (getTok toks 5) fun s5 =>
    RunResult.bind (optParse (parseF s5)) fun score_full =>
    RunResult.bind (getTok toks 6) fun s6 =>
    RunResult.bind (optParse (parseF s6)) fun bias_full =>
    RunResult.bind (getTok toks 7) fun s7 =>
    RunResult.bind (optParse (parseF s7)) fun e_value_best =>
    RunResult.bind (getTok toks 8) fun s8 =>
    RunResult.bind (optParse (parseF s8)) fun score_best =>
    RunResult.bind (getTok toks 9) fun s9 =>
    RunResult.bind (optParse (parseF s9)) fun bias_best =>
    RunResult.bind (getTok toks 10) fun s10 =>
    RunResult.bind (optParse (parseF s10)) fun expv =>
    RunResult.bind (getTok toks 11) fun s11 =>
    RunResult.bind (optParse (parseI32 s11)) fun reg =>
    RunResult.bind (getTok toks 12) fun s12 =>
    RunResult.bind (optParse (parseI32 s12)) fun clu =>
    RunResult.bind (getTok toks 13) fun s13 =>
    RunResult.bind (optParse (parseI32 s13)) fun ov =>
    RunResult.bind (getTok toks 14) fun s14 =>
    RunResult.bind (optParse (parseI32 s14)) fun env =>
    RunResult.bind (getTok toks 15) fun s15 =>
    RunResult.bind (optParse (parseI32 s15)) fun dom =>
    RunResult.bind (getTok toks 16) fun s16 =>
    RunResult.bind (optParse (parseI32 s16)) fun rep =>
    RunResult.bind (getTok toks 17) fun s17 =>
    RunResult.bind (optParse (parseI32 s17)) fun inc =>
    .ok (some {
      target_name := tn, target_accession := ta,
      query_name := qn, query_accession := qa,
      e_value_full := e_value_full, score_full := score_full,
      bias_full := bias_full, e_value_best := e_value_best,
      score_best := score_best, bias_best := bias_best, exp := expv,
      reg := reg, clu := clu, ov := ov, env := env, dom := dom,
      rep := rep, inc := inc,
      description := List.intercalate [' '] (toks.drop 18),
      col_sizes := colSizes })

/-- The per-line core of `Reader::read_cm_record` (`reader.rs` lines
610-679). -/
def readCmLine (parseF : List Char → Option F) (colSizes : List Nat)
    (line : List Char) : RunResult (Option (CMRecordL F)) :=
  if startsHash line then .ok none
  else
    let toks := splitWs line
    RunResult.bind (getTok toks 0) fun tn =>
    RunResult.bind (getTok toks 1) fun ta =>
    RunResult.bind (getTok toks 2) fun qn =>
    RunResult.bind (getTok toks 3) fun qa =>
    RunResult.bind (getTok toks 4) fun mdl =>
    RunResult.bind (getTok toks 5) fun s5 =>
    RunResult.bind (optParse (parseI32 s5)) fun mdl_from =>
    RunResult.bind (getTok toks 6) fun s6 =>
    RunResult.bind (optParse (parseI32 s6)) fun mdl_to =>
    RunResult.bind (getTok toks 7) fun s7 =>
    RunResult.bind (optParse (parseI32 s7)) fun seq_from =>
    RunResult.bind (getTok toks 8) fun s8 =>
    RunResult.bind (optParse (parseI32 s8)) fun seq_to =>
    RunResult.bind (getTok toks 9) fun s9 =>
    RunResult.bind (exceptToRun (strandFromStr s9)) fun strand =>
    RunResult.bind (getTok toks 10) fun trunc =>
    RunResult.bind (getTok toks 11) fun s11 =>
    RunResult.bind (optParse (parseI32 s11)) fun pass =>
    RunResult.bind (getTok toks 12) fun s12 =>
    RunResult.bind (optParse (parseF s12)) fun gc =>
    RunResult.bind (getTok toks 13) fun s13 =>
    RunResult.bind (optParse (parseF s13)) fun bias =>
    RunResult.bind (getTok toks 14) fun s14 =>
    RunResult.bind (optParse (parseF s14)) fun score =>
    RunResult.bind (getTok toks 15) fun s15 =>
    RunResult.bind (optParse (parseF s15)) fun e_value =>
    RunResult.bind (getTok toks 16) fun s16 =>
    RunResult.bind (optParse (parseCharTok s16)) fun inc =>
    .ok (some {
      target_name := tn, target_accession := ta,
      query_name := qn, query_accession := qa, mdl := mdl,
      mdl_from := mdl_from, mdl_to := mdl_to,
      seq_from := seq_from, seq_to := seq_to, strand := strand,
      trunc := trunc, pass := pass, gc := gc, bias := bias,
      score := score, e_value := e_value, inc := inc,
      description := List.intercalate [' '] (toks.drop 17),
      col_sizes := colSizes })

/-- One justified field followed by the single separating space of the
format string. -/
def fieldSep (f rest : List Char) : List Char := f ++ (' ' :: rest)

/-- The line produced by `impl Display for DNARecord` (`record.rs` lines
1054-1094) when all sixteen widths are present: fields justified
(`<`/`>`/`^` exactly as in the format string) and joined by single
spaces. -/
def dnaLineText (eR fR : F → List Char) (r : DNARecordL F) : List Char :=
  fieldSep (lj (r.col_sizes.getD 0 0) r.target_name) <|
  fieldSep (lj (r.col_sizes.getD 1 0) r.target_accession) <|
  fieldSep (lj (r.col_sizes.getD 2 0) r.query_name) <|
  fieldSep (lj (r.col_sizes.getD 3 0) r.query_accession) <|
  fieldSep (rj (r.col_sizes.getD 4 0) (intRender r.hmm_from)) <|
  fieldSep (rj (r.col_sizes.getD 5 0) (intRender r.hmm_to)) <|
  fieldSep (rj (r.col_sizes.getD 6 0) (intRender r.ali_from)) <|
  fieldSep (rj (r.col_sizes.getD 7 0) (intRender r.ali_to)) <|
  fieldSep (rj (r.col_sizes.getD 8 0) (intRender r.env_from)) <|
  fieldSep (rj (r.col_sizes.getD 9 0) (intRender r.env_to)) <|
  fieldSep (rj (r.col_sizes.getD 10 0) (intRender r.sq_len)) <|
  fieldSep (cj (r.col_sizes.getD 11 0) (strandChars r.strand)) <|
  fieldSep (rj (r.col_sizes.getD 12 0) (eR r.e_value)) <|
  fieldSep (rj (r.col_sizes.getD 13 0) (fR r.score)) <|
  fieldSep (rj (r.col_sizes.getD 14 0) (fR r.bias)) <|
  lj (r.col_sizes.getD 15 0) r.description

/-- `impl Display for DNARecord`: the `write!` call evaluates
`col_sizes[0]` through `col_sizes[15]`, and any missing index panics; with
all sixteen widths present the rendered line is `dnaLineText`. -/
def renderDnaLine (eR fR : F → List Char) (r : DNARecordL F) :
    RunResult (List Char) :=
  if r.col_sizes.length < 16 then .panicked
  else .ok (dnaLineText eR fR r)

/-- The line produced by `impl Display for ProteinRecord` (`record.rs`
lines 767-812) when all nineteen widths are present (`gR` models the
`{:.1}` one-decimal format applied to `exp`). -/
def proteinLineText (eR fR gR : F → List Char) (r : ProteinRecordL F) :
    List Char :=
  fieldSep (lj (r.col_sizes.getD 0 0) r.target_name) <|
  fieldSep (lj (r.col_sizes.getD 1 0) r.target_accession) <|
  fieldSep (lj (r.col_sizes.getD 2 0) r.query_name) <|
  fieldSep (lj (r.col_sizes.getD 3 0) r.query_accession) <|
  fieldSep (rj (r.col_sizes.getD 4 0) (eR r.e_value_full)) <|
  fieldSep (rj (r.col_sizes.getD 5 0) (fR r.score_full)) <|
  fieldSep (rj (r.col_sizes.getD 6 0) (fR r.bias_full)) <|
  fieldSep (rj (r.col_sizes.getD 7 0) (eR r.e_value_best)) <|
  fieldSep (rj (r.col_sizes.getD 8 0) (fR r.score_best)) <|
  fieldSep (rj (r.col_sizes.getD 9 0) (fR r.bias_best)) <|
  fieldSep (rj (r.col_sizes.getD 10 0) (gR r.exp)) <|
  fieldSep (rj (r.col_sizes.getD 11 0) (intRender r.reg)) <|
  fieldSep (rj (r.col_sizes.getD 12 0) (intRender r.clu)) <|
  fieldSep (rj (r.col_sizes.getD 13 0) (intRender r.ov)) <|
  fieldSep (rj (r.col_sizes.getD 14 0) (intRender r.env)) <|
  fieldSep (rj (r.col_sizes.getD 15 0) (intRender r.dom)) <|
  fieldSep (rj (r.col_sizes.getD 16 0) (intRender r.rep)) <|
  fieldSep (rj (r.col_sizes.getD 17 0) (intRender r.inc)) <|
  rj (r.col_sizes.getD 18 0) r.description

/-- `impl Display for ProteinRecord`: the `write!` call evaluates
`col_sizes[0]` through `col_sizes[18]`, and any missing index panics. -/
def renderProteinLine (eR fR gR : F → List Char) (r : ProteinRecordL F) :
    RunResult (List Char) :=
  if r.col_sizes.length < 19 then .panicked
  else .ok (proteinLineText eR fR gR r)

end Decode

/-- Concrete stand-in for the abstract float type in witnesses: Booleans
rendered as `"1"`/`"0"`. -/
def exF (b : Bool) : List Char := if b then "1".toList else "0".toList

/-- The matching parser for `exF`. -/
def exParseF (l : List Char) : Option Bool :=
  if l = "1".toList then some true
  else if l = "0".toList then some false else none

/-- Claim C5 is false on the code: all three record decoders index the
token vector at fixed positions without a length check, so a non-comment
line with too few tokens — here a blank data line — aborts with an
out-of-bounds panic instead of producing a record or an error value
(`reader.rs` lines 496, 558, 623). -/
theorem decoders_panic_on_blank_line :
    readDnaLine exParseF [] [] = .panicked ∧
    readProteinLine exParseF [] [] = .panicked ∧
    readCmLine exParseF [] [] = .panicked := by decide

/-- Claim C9: both `Display` implementations read the stored width list at
every fixed column index, so a record whose width list is shorter than the
schema's column count (16 for the DNA schema, 19 for the protein schema)
panics when rendered instead of producing a line or an error; the empty
width list arises from a header without a dash line, since
`calculate_dashes` on the default header yields `[]` (third conjunct). -/
theorem display_short_widths_panic :
    (∀ (F : Type) (eR fR : F → List Char) (r : DNARecordL F),
        r.col_sizes.length < 16 → renderDnaLine eR fR r = .panicked) ∧
    (∀ (F : Type) (eR fR gR : F → List Char) (r : ProteinRecordL F),
        r.col_sizes.length < 19 → renderProteinLine eR fR gR r = .panicked) ∧
    calcDashes ({} : Header).dashes = [] := by
  refine ⟨fun F eR fR r h => ?_, fun F eR fR gR r h => ?_, rfl⟩
  · unfold renderDnaLine
    rw [if_pos h]
  · unfold renderProteinLine
    rw [if_pos h]

/-- A DNA record carrying the empty width list (the "no dash line found"
state). -/
def emptyWidthDna : DNARecordL Bool :=
  { target_name := "t".toList, target_accession := "-".toList,
    query_name := "q".toList, query_accession := "-".toList,
    hmm_from := 1, hmm_to := 2, ali_from := 3, ali_to := 4,
    env_from := 5, env_to := 6, sq_len := 7, strand := .Positive,
    e_value := true, score := true, bias := true,
    description := "d".toList, col_sizes := [] }

/-- Witness for C9 at a record with an empty width list. -/
theorem display_short_widths_panic_witness :
    emptyWidthDna.col_sizes.length < 16 ∧
      renderDnaLine exF exF emptyWidthDna = .panicked :=
  ⟨by decide, display_short_widths_panic.1 Bool exF exF emptyWidthDna (by decide)⟩

/-! ## Round trip `decode ∘ render` for the DNA schema (claim C3) -/

instance (t : List Char) : Decidable (wsFree t) :=
  List.decidableBAll (fun c => isWs c = false) t

instance (t : List Char) : Decidable (allWsP t) :=
  List.decidableBAll (fun c => isWs c = true) t

theorem getTok_zero {t : List Char} {ts : List (List Char)} :
    getTok (t :: ts) 0 = .ok t := rfl

theorem getTok_succ {t : List Char} {ts : List (List Char)} {i : Nat} :
    getTok (t :: ts) (i + 1) = getTok ts i := rfl

theorem bind_ok {α β : Type} (a : α) (f : α → RunResult β) :
    RunResult.bind (.ok a) f = f a := rfl

/-- Range of `i32`. -/
def i32range (n : Int) : Prop := -2147483648 ≤ n ∧ n ≤ 2147483647

instance (n : Int) : Decidable (i32range n) := by
  unfold i32range
  infer_instance

/-- Tokenizing a rendered DNA line recovers the fifteen leading field
tokens followed by the description's own whitespace tokens, provided every
field token is non-empty and whitespace-free. -/
theorem splitWs_dnaLineText {F : Type} (eR fR : F → List Char)
    (r : DNARecordL F)
    (h0 : r.target_name ≠ []) (h0w : wsFree r.target_name)
    (h1 : r.target_accession ≠ []) (h1w : wsFree r.target_accession)
    (h2 : r.query_name ≠ []) (h2w : wsFree r.query_name)
    (h3 : r.query_accession ≠ []) (h3w : wsFree r.query_accession)
    (he : eR r.e_value ≠ []) (hew : wsFree (eR r.e_value))
    (hs : fR r.score ≠ []) (hsw : wsFree (fR r.score))
    (hb : fR r.bias ≠ []) (hbw : wsFree (fR r.bias)) :
    splitWs (dnaLineText eR fR r) =
      r.target_name :: r.target_accession :: r.query_name ::
      r.query_accession :: intRender r.hmm_from :: intRender r.hmm_to ::
      intRender r.ali_from :: intRender r.ali_to :: intRender r.env_from ::
      intRender r.env_to :: intRender r.sq_len :: strandChars r.strand ::
      eR r.e_value :: fR r.score :: fR r.bias :: splitWs r.description := by
  unfold dnaLineText fieldSep
  rw [splitWs_lj_sep _ _ _ h0 h0w, splitWs_lj_sep _ _ _ h1 h1w,
    splitWs_lj_sep _ _ _ h2 h2w, splitWs_lj_sep _ _ _ h3 h3w,
    splitWs_rj_sep _ _ _ (intRender_ne_nil _) (intRender_wsFree _),
    splitWs_rj_sep _ _ _ (intRender_ne_nil _) (intRender_wsFree _),
    splitWs_rj_sep _ _ _ (intRender_ne_nil _) (intRender_wsFree _),
    splitWs_rj_sep _ _ _ (intRender_ne_nil _) (intRender_wsFree _),
    splitWs_rj_sep _ _ _ (intRender_ne_nil _) (intRender_wsFree _),
    splitWs_rj_sep _ _ _ (intRender_ne_nil _) (intRender_wsFree _),
    splitWs_rj_sep _ _ _ (intRender_ne_nil _) (intRender_wsFree _),
    splitWs_cj_sep _ _ _ (strandChars_ne_nil _) (strandChars_wsFree _),
    splitWs_rj_sep _ _ _ he hew, splitWs_rj_sep _ _ _ hs hsw,
    splitWs_rj_sep _ _ _ hb hbw, splitWs_lj_last]

/-- A rendered line starts with the first character of the first field. -/
theorem startsHash_lj (w : Nat) (t l : List Char) (ht : t ≠ [])
    (hh : startsHash t = false) : startsHash (lj w t ++ l) = false := by
  cases t with
  | nil => exact absurd rfl ht
  | cons c cs => exact hh

/-- Claim C3, amended: for a DNA record whose non-description string fields
are single whitespace-free non-empty tokens, whose target name does not
begin with the comment marker, and which carries all sixteen column widths,
decoding the rendered line yields a record equal to the original in every
field except the description, which is recovered as the original
description's whitespace tokens re-joined with single spaces (hence equal
to the original exactly when the description has no leading/trailing
whitespace, no whitespace other than plain spaces, and no run of
consecutive interior spaces). -/
theorem dna_decode_render {F : Type} (parseF : List Char → Option F)
    (eR fR : F → List Char)
    (hpe : ∀ x, parseF (eR x) = some x)
    (hpf : ∀ x, parseF (fR x) = some x)
    (hene : ∀ x, eR x ≠ []) (hews : ∀ x, wsFree (eR x))
    (hfne : ∀ x, fR x ≠ []) (hfws : ∀ x, wsFree (fR x))
    (r : DNARecordL F)
    (h0 : r.target_name ≠ []) (h0w : wsFree r.target_name)
    (h0h : startsHash r.target_name = false)
    (h1 : r.target_accession ≠ []) (h1w : wsFree r.target_accession)
    (h2 : r.query_name ≠ []) (h2w : wsFree r.query_name)
    (h3 : r.query_accession ≠ []) (h3w : wsFree r.query_accession)
    (hr4 : i32range r.hmm_from) (hr5 : i32range r.hmm_to)
    (hr6 : i32range r.ali_from) (hr7 : i32range r.ali_to)
    (hr8 : i32range r.env_from) (hr9 : i32range r.env_to)
    (hr10 : i32range r.sq_len)
    (hlen : r.col_sizes.length = 16) :
    renderDnaLine eR fR r = .ok (dnaLineText eR fR r) ∧
    readDnaLine parseF r.col_sizes (dnaLineText eR fR r) =
      .ok (some {r with
        description := List.intercalate [' '] (splitWs r.description)}) := by
  constructor
  · unfold renderDnaLine
    rw [if_neg (by omega)]
  · have hstart : startsHash (dnaLineText eR fR r) = false := by
      unfold dnaLineText fieldSep
      exact startsHash_lj _ _ _ h0 h0h
    have htoks := splitWs_dnaLineText eR fR r h0 h0w h1 h1w h2 h2w h3 h3w
      (hene _) (hews _) (hfne _) (hfws _) (hfne _) (hfws _)
    unfold readDnaLine
    rw [if_neg (by rw [hstart]; simp)]
    simp only [htoks, getTok_zero, getTok_succ, bind_ok, optParse,
      exceptToRun, strandFromStr_strandChars,
      parseI32_intRender r.hmm_from hr4.1 hr4.2,
      parseI32_intRender r.hmm_to hr5.1 hr5.2,
      parseI32_intRender r.ali_from hr6.1 hr6.2,
      parseI32_intRender r.ali_to hr7.1 hr7.2,
      parseI32_intRender r.env_from hr8.1 hr8.2,
      parseI32_intRender r.env_to hr9.1 hr9.2,
      parseI32_intRender r.sq_len hr10.1 hr10.2,
      hpe, hpf, List.drop_succ_cons, List.drop_zero]

/-- A valid DNA record used to exercise the round trip. -/
def okRec : DNARecordL Bool :=
  { target_name := "chr1".toList, target_accession := "-".toList,
    query_name := "q".toList, query_accession := "QACC".toList,
    hmm_from := 1, hmm_to := 2, ali_from := -3, ali_to := 4,
    env_from := 5, env_to := 6, sq_len := 7, strand := .Negative,
    e_value := true, score := false, bias := true,
    description := "some desc".toList,
    col_sizes := [4, 1, 1, 4, 1, 1, 2, 1, 1, 1, 1, 3, 1, 1, 1, 1] }

/-- Witness for the amended C3 at `okRec` with Booleans standing in for the
abstract float type. -/
theorem dna_decode_render_witness :
    okRec.col_sizes.length = 16 ∧
    readDnaLine exParseF okRec.col_sizes (dnaLineText exF exF okRec) =
      .ok (some {okRec with
        description := List.intercalate [' '] (splitWs okRec.description)}) :=
  ⟨by decide,
    (dna_decode_render exParseF exF exF
      (by intro x; cases x <;> decide) (by intro x; cases x <;> decide)
      (by intro x; cases x <;> decide) (by intro x; cases x <;> decide)
      (by intro x; cases x <;> decide) (by intro x; cases x <;> decide)
      okRec (by decide) (by decide) (by decide) (by decide) (by decide)
      (by decide) (by decide) (by decide) (by decide) (by decide) (by decide)
      (by decide) (by decide) (by decide) (by decide) (by decide)
      (by decide)).2⟩

/-- A record satisfying every validity condition of claim C3 as stated
(non-description string fields are single whitespace-free non-empty tokens
and all sixteen widths are present) whose target name begins with `#`. -/
def hashRec : DNARecordL Bool :=
  { target_name := "#t".toList, target_accession := "-".toList,
    query_name := "q".toList, query_accession := "-".toList,
    hmm_from := 1, hmm_to := 2, ali_from := 3, ali_to := 4,
    env_from := 5, env_to := 6, sq_len := 7, strand := .Positive,
    e_value := true, score := true, bias := true,
    description := "d".toList, col_sizes := List.replicate 16 1 }

/-- Counterexample to claim C3 as stated: `hashRec` meets all the stated
validity conditions, renders successfully, yet decoding its rendered line
yields no record at all (the line starts with `#`, so the decoder skips it
as a comment) — not a record equal to the original. -/
theorem dna_roundtrip_fails_on_hash_name :
    hashRec.target_name ≠ [] ∧ wsFree hashRec.target_name ∧
    hashRec.col_sizes.length = 16 ∧
    renderDnaLine exF exF hashRec = .ok (dnaLineText exF exF hashRec) ∧
    readDnaLine exParseF hashRec.col_sizes (dnaLineText exF exF hashRec) =
      .ok none :=
  ⟨by decide, by decide, by decide, by decide, by decide⟩

/-! ## `impl Display for Meta` against `MetaReader::read_meta` (claim C10) -/

/-- `impl Display for Program` (`record.rs` lines 489-505): the known
names; `Program::None` makes the formatter fail, so rendering is
partial. -/
def progChars : Program → Option (List Char)
  | .None => none
  | .Nhmmer => some "nhmmer".toList
  | .Nhmmscan => some "nhmmscan".toList
  | .Jackhmmer => some "jackhmmer".toList
  | .Hmmscan => some "hmmscan".toList
  | .Hmmsearch => some "hmmsearch".toList
  | .Phmmer => some "phmmer".toList
  | .Cmsearch => some "cmsearch".toList
  | .Cmscan => some "cmscan".toList

/-- `impl Display for Meta` (`record.rs` lines 646-659) as the list of
lines it writes, spacing copied verbatim from the format strings.  This
list-of-lines view coincides with splitting the written string at newlines
whenever no field value contains a newline itself (the hypotheses of the
theorem below). -/
def metaRenderLines (m : Meta) : Option (List (List Char)) :=
  (progChars m.program).map fun p =>
    ["#".toList,
     "# Program:         ".toList ++ p,
     "# Version:         ".toList ++ m.version,
     "# Pipeline mode:   ".toList ++ m.pipeline_mode,
     "# Query file:      ".toList ++ m.query_file,
     "# Target file:     ".toList ++ m.target_file,
     "# Options:         ".toList ++ m.options,
     "# Current dir:     ".toList ++ m.current_dir,
     "# Date:            ".toList ++ m.date,
     "# [ok]".toList]

theorem splitCS_keyCut (a : List Char) (ha : ∀ c ∈ a, c ≠ ':') :
    ∀ b, splitColonSpace (a ++ ':' :: ' ' :: b) = a :: splitColonSpace b := by
  induction a with
  | nil => intro b; rfl
  | cons c a ih =>
    intro b
    have hc : c ≠ ':' := ha c (List.mem_cons_self c a)
    have ha2 : ∀ d ∈ a, d ≠ ':' := fun d hd => ha d (List.mem_cons_of_mem c hd)
    rw [List.cons_append]
    cases a with
    | nil => simp [splitColonSpace, hc]
    | cons d a2 =>
      rw [List.cons_append]
      show (if c = ':' ∧ d = ' ' then _ else _) = _
      rw [if_neg (fun h => hc h.1)]
      rw [show d :: (a2 ++ ':' :: ' ' :: b) = (d :: a2) ++ ':' :: ' ' :: b
        from rfl]
      rw [ih ha2 b]

theorem metaProcessLine_split (m : Meta) (a b : List Char)
    (ha : ∀ c ∈ a, c ≠ ':') :
    metaProcessLine m (a ++ ':' :: ' ' :: b) =
      metaKeyUpdate m (trimWs a)
        (List.intercalate [' '] ((splitColonSpace b).map trimWs)) := by
  unfold metaProcessLine
  rw [splitCS_keyCut a ha b]
  rfl

theorem readMetaStep_skip (hc : Nat) (m : Meta) (line : List Char)
    (hsh : startsHash line = true) (hlt : hc + 1 < 4) :
    readMetaStep (hc, m) line = .ok (hc + 1, m) := by
  have h4 : ¬ (hc + 1 ≥ 4) := by omega
  simp [readMetaStep, hsh, h4]

theorem readMetaStep_process (hc : Nat) (m : Meta) (line : List Char)
    (hsh : startsHash line = true) (hge : hc + 1 ≥ 4) :
    readMetaStep (hc, m) line =
      (metaProcessLine m line).map (fun m2 => (hc + 1, m2)) := by
  simp [readMetaStep, hsh, hge]

theorem runFold_cons_ok {σ α : Type} (f : σ → α → RunResult σ) (s s2 : σ)
    (a : α) (as : List α) (h : f s a = .ok s2) :
    runFold f s (a :: as) = runFold f s2 as := by
  have e : runFold f s (a :: as) =
      match f s a with
      | .ok s3 => runFold f s3 as
      | .err e => .err e
      | .panicked => .panicked := rfl
  rw [e, h]

/-- The value stored for a recognized key when the rendered value `v` sits
behind `pad` further spaces of the fixed-width template. -/
def metaValue (pad v : List Char) : List Char :=
  List.intercalate [' '] ((splitColonSpace (pad ++ v)).map trimWs)

theorem metaProcess_pipeline (mm : Meta) (v : List Char) :
    metaProcessLine mm ("# Pipeline mode:   ".toList ++ v) =
      .ok {mm with pipeline_mode := metaValue "  ".toList v} := by
  rw [show "# Pipeline mode:   ".toList ++ v =
      "# Pipeline mode".toList ++ ':' :: ' ' :: ("  ".toList ++ v) from by
    rw [show "# Pipeline mode:   ".toList =
      "# Pipeline mode".toList ++ ':' :: ' ' :: "  ".toList from by decide]
    simp]
  rw [metaProcessLine_split _ _ _ (by decide)]
  rfl

theorem metaProcess_query (mm : Meta) (v : List Char) :
    metaProcessLine mm ("# Query file:      ".toList ++ v) =
      .ok {mm with query_file := metaValue "     ".toList v} := by
  rw [show "# Query file:      ".toList ++ v =
      "# Query file".toList ++ ':' :: ' ' :: ("     ".toList ++ v) from by
    rw [show "# Query file:      ".toList =
      "# Query file".toList ++ ':' :: ' ' :: "     ".toList from by decide]
    simp]
  rw [metaProcessLine_split _ _ _ (by decide)]
  rfl

theorem metaProcess_target (mm : Meta) (v : List Char) :
    metaProcessLine mm ("# Target file:     ".toList ++ v) =
      .ok {mm with target_file := metaValue "    ".toList v} := by
  rw [show "# Target file:     ".toList ++ v =
      "# Target file".toList ++ ':' :: ' ' :: ("    ".toList ++ v) from by
    rw [show "# Target file:     ".toList =
      "# Target file".toList ++ ':' :: ' ' :: "    ".toList from by decide]
    simp]
  rw [metaProcessLine_split _ _ _ (by decide)]
  rfl

theorem metaProcess_options (mm : Meta) (v : List Char) :
    metaProcessLine mm ("# Options:         ".toList ++ v) = .ok mm := by
  rw [show "# Options:         ".toList ++ v =
      "# Options".toList ++ ':' :: ' ' :: ("        ".toList ++ v) from by
    rw [show "# Options:         ".toList =
      "# Options".toList ++ ':' :: ' ' :: "        ".toList from by decide]
    simp]
  rw [metaProcessLine_split _ _ _ (by decide)]
  rfl

theorem metaProcess_currentdir (mm : Meta) (v : List Char) :
    metaProcessLine mm ("# Current dir:     ".toList ++ v) =
      .ok {mm with current_dir := metaValue "    ".toList v} := by
  rw [show "# Current dir:     ".toList ++ v =
      "# Current dir".toList ++ ':' :: ' ' :: ("    ".toList ++ v) from by
    rw [show "# Current dir:     ".toList =
      "# Current dir".toList ++ ':' :: ' ' :: "    ".toList from by decide]
    simp]
  rw [metaProcessLine_split _ _ _ (by decide)]
  rfl

theorem metaProcess_date (mm : Meta) (v : List Char) :
    metaProcessLine mm ("# Date:            ".toList ++ v) =
      .ok {mm with date := metaValue "           ".toList v} := by
  rw [show "# Date:            ".toList ++ v =
      "# Date".toList ++ ':' :: ' ' :: ("           ".toList ++ v) from by
    rw [show "# Date:            ".toList =
      "# Date".toList ++ ':' :: ' ' :: "           ".toList from by decide]
    simp]
  rw [metaProcessLine_split _ _ _ (by decide)]
  rfl

theorem metaProcess_okline (mm : Meta) :
    metaProcessLine mm "# [ok]".toList = .ok mm := rfl

/-- Claim C10: the `Meta` block written by `Display for Meta` is not
faithfully re-parsed by `read_meta`.  The leading `"#"`, the
`"# Program: ..."` and the `"# Version: ..."` lines are the first three
comment lines, which the scanner skips unexamined, and the rendered options
key `"# Options"` does not match the recognized key `"# Option settings"`;
so for every `Meta` with a known program (and newline-free field values,
under which the list-of-lines model is exact) the re-parsed `Meta` has the
unknown program and empty version and options. -/
theorem meta_render_not_reparsed (m : Meta) (ls : List (List Char))
    (hp : m.program ≠ .None)
    (hv : ¬ '\n' ∈ m.version) (hpm : ¬ '\n' ∈ m.pipeline_mode)
    (hq : ¬ '\n' ∈ m.query_file) (htf : ¬ '\n' ∈ m.target_file)
    (ho : ¬ '\n' ∈ m.options) (hcd : ¬ '\n' ∈ m.current_dir)
    (hd : ¬ '\n' ∈ m.date)
    (hr : metaRenderLines m = some ls) :
    ∃ m2, readMetaLines ls = .ok m2 ∧ m2.program = .None ∧
      m2.version = [] ∧ m2.options = [] := by
  obtain ⟨p, hprog, rfl⟩ : ∃ p, progChars m.program = some p ∧
      ls = ["#".toList,
        "# Program:         ".toList ++ p,
        "# Version:         ".toList ++ m.version,
        "# Pipeline mode:   ".toList ++ m.pipeline_mode,
        "# Query file:      ".toList ++ m.query_file,
        "# Target file:     ".toList ++ m.target_file,
        "# Options:         ".toList ++ m.options,
        "# Current dir:     ".toList ++ m.current_dir,
        "# Date:            ".toList ++ m.date,
        "# [ok]".toList] := by
    cases hpc : progChars m.program with
    | none =>
      rw [metaRenderLines, hpc] at hr
      exact absurd hr (by simp)
    | some p =>
      rw [metaRenderLines, hpc] at hr
      simp only [Option.map] at hr
      exact ⟨p, rfl, (Option.some.injEq _ _ ▸ hr).symm⟩
  have hshProg : startsHash ("# Program:         ".toList ++ p) = true := rfl
  have hshVer : startsHash ("# Version:         ".toList ++ m.version) = true := rfl
  have hshPm : startsHash ("# Pipeline mode:   ".toList ++ m.pipeline_mode) = true := rfl
  have hshQf : startsHash ("# Query file:      ".toList ++ m.query_file) = true := rfl
  have hshTf : startsHash ("# Target file:     ".toList ++ m.target_file) = true := rfl
  have hshOp : startsHash ("# Options:         ".toList ++ m.options) = true := rfl
  have hshCd : startsHash ("# Current dir:     ".toList ++ m.current_dir) = true := rfl
  have hshDt : startsHash ("# Date:            ".toList ++ m.date) = true := rfl
  have s1 : readMetaStep (0, ({} : Meta)) "#".toList = .ok (1, ({} : Meta)) :=
    readMetaStep_skip 0 _ _ (by decide) (by omega)
  have s2 : readMetaStep (1, ({} : Meta))
      ("# Program:         ".toList ++ p) = .ok (2, ({} : Meta)) :=
    readMetaStep_skip 1 _ _ hshProg (by omega)
  have s3 : readMetaStep (2, ({} : Meta))
      ("# Version:         ".toList ++ m.version) = .ok (3, ({} : Meta)) :=
    readMetaStep_skip 2 _ _ hshVer (by omega)
  have s4 : readMetaStep (3, ({} : Meta))
      ("# Pipeline mode:   ".toList ++ m.pipeline_mode) =
      .ok (4, Meta.mk .None [] (metaValue "  ".toList m.pipeline_mode) [] [] [] [] []) := by
    rw [readMetaStep_process 3 _ _ hshPm (by omega), metaProcess_pipeline]
    rfl
  have s5 : readMetaStep
      (4, Meta.mk .None [] (metaValue "  ".toList m.pipeline_mode) [] [] [] [] [])
      ("# Query file:      ".toList ++ m.query_file) =
      .ok (5, Meta.mk .None [] (metaValue "  ".toList m.pipeline_mode)
        (metaValue "     ".toList m.query_file) [] [] [] []) := by
    rw [readMetaStep_process 4 _ _ hshQf (by omega), metaProcess_query]
    rfl
  have s6 : readMetaStep
      (5, Meta.mk .None [] (metaValue "  ".toList m.pipeline_mode)
        (metaValue "     ".toList m.query_file) [] [] [] [])
      ("# Target file:     ".toList ++ m.target_file) =
      .ok (6, Meta.mk .None [] (metaValue "  ".toList m.pipeline_mode)
        (metaValue "     ".toList m.query_file)
        (metaValue "    ".toList m.target_file) [] [] []) := by
    rw [readMetaStep_process 5 _ _ hshTf (by omega), metaProcess_target]
    rfl
  have s7 : readMetaStep
      (6, Meta.mk .None [] (metaValue "  ".toList m.pipeline_mode)
        (metaValue "     ".toList m.query_file)
        (metaValue "    ".toList m.target_file) [] [] [])
      ("# Options:         ".toList ++ m.options) =
      .ok (7, Meta.mk .None [] (metaValue "  ".toList m.pipeline_mode)
        (metaValue "     ".toList m.query_file)
        (metaValue "    ".toList m.target_file) [] [] []) := by
    rw [readMetaStep_process 6 _ _ hshOp (by omega), metaProcess_options]
    rfl
  have s8 : readMetaStep
      (7, Meta.mk .None [] (metaValue "  ".toList m.pipeline_mode)
        (metaValue "     ".toList m.query_file)
        (metaValue "    ".toList m.target_file) [] [] [])
      ("# Current dir:     ".toList ++ m.current_dir) =
      .ok (8, Meta.mk .None [] (metaValue "  ".toList m.pipeline_mode)
        (metaValue "     ".toList m.query_file)
        (metaValue "    ".toList m.target_file) []
        (metaValue "    ".toList m.current_dir) []) := by
    rw [readMetaStep_process 7 _ _ hshCd (by omega), metaProcess_currentdir]
    rfl
  have s9 : readMetaStep
      (8, Meta.mk .None [] (metaValue "  ".toList m.pipeline_mode)
        (metaValue "     ".toList m.query_file)
        (metaValue "    ".toList m.target_file) []
        (metaValue "    ".toList m.current_dir) [])
      ("# Date:            ".toList ++ m.date) =
      .ok (9, Meta.mk .None [] (metaValue "  ".toList m.pipeline_mode)
        (metaValue "     ".toList m.query_file)
        (metaValue "    ".toList m.target_file) []
        (metaValue "    ".toList m.current_dir)
        (metaValue "           ".toList m.date)) := by
    rw [readMetaStep_process 8 _ _ hshDt (by omega), metaProcess_date]
    rfl
  have s10 : readMetaStep
      (9, Meta.mk .None [] (metaValue "  ".toList m.pipeline_mode)
        (metaValue "     ".toList m.query_file)
        (metaValue "    ".toList m.target_file) []
        (metaValue "    ".toList m.current_dir)
        (metaValue "           ".toList m.date))
      "# [ok]".toList =
      .ok (10, Meta.mk .None [] (metaValue "  ".toList m.pipeline_mode)
        (metaValue "     ".toList m.query_file)
        (metaValue "    ".toList m.target_file) []
        (metaValue "    ".toList m.current_dir)
        (metaValue "           ".toList m.date)) := by
    rw [readMetaStep_process 9 _ _ (by decide) (by omega), metaProcess_okline]
    rfl
  refine ⟨Meta.mk .None [] (metaValue "  ".toList m.pipeline_mode)
    (metaValue "     ".toList m.query_file)
    (metaValue "    ".toList m.target_file) []
    (metaValue "    ".toList m.current_dir)
    (metaValue "           ".toList m.date), ?_, rfl, rfl, rfl⟩
  unfold readMetaLines
  rw [runFold_cons_ok _ _ _ _ _ s1, runFold_cons_ok _ _ _ _ _ s2,
    runFold_cons_ok _ _ _ _ _ s3, runFold_cons_ok _ _ _ _ _ s4,
    runFold_cons_ok _ _ _ _ _ s5, runFold_cons_ok _ _ _ _ _ s6,
    runFold_cons_ok _ _ _ _ _ s7, runFold_cons_ok _ _ _ _ _ s8,
    runFold_cons_ok _ _ _ _ _ s9, runFold_cons_ok _ _ _ _ _ s10]
  rfl

/-- Witness for C10 at a small concrete `Meta`. -/
theorem meta_render_not_reparsed_witness :
    metaRenderLines
      { program := .Nhmmer, version := "3.4".toList,
        pipeline_mode := "SCAN".toList, query_file := "q.hmm".toList,
        target_file := "t.fa".toList, options := "-o out".toList,
        current_dir := "/tmp".toList, date := "Fri".toList } ≠ none ∧
    ∃ m2, readMetaLines
      ["#".toList,
       "# Program:         nhmmer".toList,
       "# Version:         3.4".toList,
       "# Pipeline mode:   SCAN".toList,
       "# Query file:      q.hmm".toList,
       "# Target file:     t.fa".toList,
       "# Options:         -o out".toList,
       "# Current dir:     /tmp".toList,
       "# Date:            Fri".toList,
       "# [ok]".toList] = .ok m2 ∧ m2.program = .None ∧
      m2.version = [] ∧ m2.options = [] :=
  ⟨by decide,
    meta_render_not_reparsed
      { program := .Nhmmer, version := "3.4".toList,
        pipeline_mode := "SCAN".toList, query_file := "q.hmm".toList,
        target_file := "t.fa".toList, options := "-o out".toList,
        current_dir := "/tmp".toList, date := "Fri".toList } _
      (by decide) (by decide) (by decide) (by decide) (by decide)
      (by decide) (by decide) (by decide) (by decide)⟩

end Hmm
